import Mathlib

/-!
Verification of the `editstruct` struct-field editor and import synthesizer.

The development shallowly embeds the Go sources:
* `internal/editor/editor.go`  — the splice editor (`EditStruct`, `editFields`,
  `typeString`, `replaceType`, `ParseTypeString`, `RequiredImports`);
* `internal/editor/imports.go` — the import manager (`newImportManager`,
  `add`, `insertNewImportBlock`, `findInsertPosition`, `addToBlock`,
  `convertToBlock`, `findImportDecl`, `specString`);
* `internal/config/config.go`  — `parseQualifiedType`.

Byte buffers are modelled as `List Char` (the sources are ASCII, so bytes and
characters coincide), Go maps as association lists with Go's assignment
semantics, and the parsed `go/ast` tree as a first-order structure carrying the
byte offsets that `token.FileSet.Position` would report.  Loops become
structural recursions that thread the mutated state exactly as the Go code
mutates it.
-/

set_option autoImplicit false

namespace EditStructVerif

/-- Byte strings, modelled as lists of characters. -/
abbrev Str := List Char

/-- Go map read `m[k]`: the value bound to `k`, if any (first binding wins;
`insertL` keeps keys unique). -/
def lookupL : List (Str × Str) → Str → Option Str
  | [], _ => none
  | (k, v) :: rest, key => if k = key then some v else lookupL rest key

/-- Go map assignment `m[k] = v`: overwrite an existing binding or append. -/
def insertL : List (Str × Str) → Str → Str → List (Str × Str)
  | [], k, v => [(k, v)]
  | (k', v') :: rest, k, v =>
      if k' = k then (k, v) :: rest else (k', v') :: insertL rest k v

/-- `strings.Join(parts, sep)`. -/
def joinStr (sep : Str) : List Str → Str
  | [] => []
  | [x] => x
  | x :: y :: rest => x ++ sep ++ joinStr sep (y :: rest)

/-- Does `hay` start with `needle`? -/
def startsWithSeg : Str → Str → Bool
  | [], _ => true
  | _ :: _, [] => false
  | c :: cs, d :: ds => c = d && startsWithSeg cs ds

/-- Does `needle` occur contiguously inside `hay`? -/
def hasSeg (needle : Str) : Str → Bool
  | [] => needle.isEmpty
  | c :: rest => startsWithSeg needle (c :: rest) || hasSeg needle rest

/-- The whitespace class of Go's `unicode.IsSpace` restricted to the
characters that can appear in the sources at hand. -/
def isGoSpace (c : Char) : Bool :=
  c = ' ' || c = '\t' || c = '\n' || c = '\x0b' || c = '\x0c' || c = '\r' ||
    c = '\u0085' || c = '\u00A0'

/-- `strings.TrimSpace`. -/
def trimSpace (s : Str) : Str :=
  ((s.dropWhile isGoSpace).reverse.dropWhile isGoSpace).reverse

/-- `strings.Trim(s, string(cut))` for a one-character cutset. -/
def goTrim (cut : Char) (s : Str) : Str :=
  ((s.dropWhile (· = cut)).reverse.dropWhile (· = cut)).reverse

/-- `strings.Split(s, string(c))`. -/
def splitAll (c : Char) : Str → List Str
  | [] => [[]]
  | d :: rest =>
      if d = c then [] :: splitAll c rest
      else
        match splitAll c rest with
        | [] => [[d]]
        | s :: ss => (d :: s) :: ss

/-- `parts[len(parts)-1]` of `strings.Split(p, "/")`. -/
def lastSegment (p : Str) : Str :=
  (splitAll '/' p).getLastD []

/-- `strings.SplitN(s, ".", 2)`: split at the first dot, if any. -/
def splitOnceDot : Str → Option (Str × Str)
  | [] => none
  | c :: rest =>
      if c = '.' then some ([], rest)
      else
        match splitOnceDot rest with
        | some (a, b) => some (c :: a, b)
        | none => none

/-- `strings.HasPrefix(s, string(c))`. -/
def headEq (c : Char) : Str → Bool
  | [] => false
  | d :: _ => d = c

/-! ## The parsed tree (`go/ast` as used by the editor) -/

/-- The type-expression forms `typeString` distinguishes; `other` stands for
every `ast.Expr` the `default` branch catches. -/
inductive TypeExpr where
  | ident (name : Str)
  | selector (x : TypeExpr) (sel : Str)
  | star (x : TypeExpr)
  | array (elt : TypeExpr)
  | mapT (key val : TypeExpr)
  | other
  deriving DecidableEq

/-- A struct field: `ast.Field` with the byte span `[typeStart, typeEnd)` of
its type expression in the original buffer (what
`fset.Position(field.Type.Pos()).Offset` / `.End()` report). -/
structure FieldG where
  names : List Str
  typeExpr : TypeExpr
  typeStart : Nat
  typeEnd : Nat
  deriving DecidableEq

/-- `token.Token` restricted to the kinds the code inspects. -/
inductive GoTok where
  | timport
  | ttype
  | tconst
  | tvar
  deriving DecidableEq

/-- The underlying type of an `ast.TypeSpec`: a struct literal or anything
else (alias, interface, ...). -/
inductive TypeSpecBody where
  | structBody (fields : List FieldG)
  | nonStruct
  deriving DecidableEq

/-- An `ast.Spec` inside a `GenDecl`. -/
inductive SpecG where
  | importSpec (name : Option Str) (pathValue : Str)
  | typeSpec (name : Str) (body : TypeSpecBody)
  | otherSpec
  deriving DecidableEq

/-- An `ast.GenDecl` with the offsets the import manager reads:
`Pos()`, `End()`, `Lparen.IsValid()`, and the `Lparen`/`Rparen` offsets. -/
structure GenDeclG where
  tok : GoTok
  pos : Nat
  endPos : Nat
  lparenValid : Bool
  lparenOff : Nat
  rparenOff : Nat
  specs : List SpecG
  deriving DecidableEq

/-- A top-level `ast.Decl`. -/
inductive DeclG where
  | gen (g : GenDeclG)
  | func (pos : Nat)
  | bad
  deriving DecidableEq

/-- An entry of `ast.File.Imports`; `pathValue` keeps the surrounding quotes,
exactly as `ast.ImportSpec.Path.Value` does. -/
structure ImportSpecG where
  name : Option Str
  pathValue : Str
  deriving DecidableEq

/-- The parts of `ast.File` the editor consults. -/
structure GoFileG where
  decls : List DeclG
  fimports : List ImportSpecG
  fileEnd : Nat
  deriving DecidableEq

/-- The `Editor` struct: the read-only parse tree, the mutable byte buffer,
and the import manager's `existing` alias map. -/
structure EState where
  file : GoFileG
  src : Str
  existing : List (Str × Str)
  deriving DecidableEq

/-! ## editor.go -/

/-- `typeString` (editor.go:119-134). -/
def typeString : TypeExpr → Str
  | .ident n => n
  | .selector x sel => typeString x ++ '.' :: sel
  | .star x => '*' :: typeString x
  | .array elt => '[' :: ']' :: typeString elt
  | .mapT k v => "map[".toList ++ typeString k ++ ']' :: typeString v
  | .other => []

/-- `replaceType` (editor.go:136-141): splice `newType` over
`src[start:stop]` of the CURRENT buffer, at offsets taken from the original
parse. -/
def replaceType (src : Str) (start stop : Nat) (newType : Str) : Str :=
  src.take start ++ newType ++ src.drop stop

/-- The bounds checks Go performs on the slice expressions of `replaceType`:
`e.src[end:]` panics when `stop` exceeds the buffer length, and `e.src[:start]`
when `start` does (the editor only uses non-empty spans, so `start < stop` and
the second check is subsumed by the first).  `none` is the panic;
`replaceType` above is the total version whose value agrees with Go exactly
when this returns `some`. -/
def replaceTypeChecked (src : Str) (start stop : Nat) (newType : Str) : Option Str :=
  if start ≤ src.length ∧ stop ≤ src.length then
    some (src.take start ++ newType ++ src.drop stop)
  else none

/-- The inner `for _, name := range field.Names` loop of `editFields`
(editor.go:100-113), threading the mutated buffer and `modified` flag. -/
def editNames (edits : List (Str × Str)) (f : FieldG) (src : Str) (m : Bool) :
    List Str → Str × Bool
  | [] => (src, m)
  | n :: rest =>
      match lookupL edits n with
      | none => editNames edits f src m rest
      | some newType =>
          if typeString f.typeExpr = newType then editNames edits f src m rest
          else editNames edits f (replaceType src f.typeStart f.typeEnd newType) true rest

/-- The outer `for _, field := range st.Fields.List` loop of `editFields`
(editor.go:95-114). -/
def editFieldsRec (edits : List (Str × Str)) (src : Str) (m : Bool) :
    List FieldG → Str × Bool
  | [] => (src, m)
  | f :: rest =>
      if f.names = [] then editFieldsRec edits src m rest
      else
        let r := editNames edits f src m f.names
        editFieldsRec edits r.1 r.2 rest

/-- `editFields` (editor.go:92-117). -/
def editFields (fields : List FieldG) (edits : List (Str × Str)) (src : Str) :
    Str × Bool :=
  editFieldsRec edits src false fields

/-- The `for _, spec := range gd.Specs` loop of `EditStruct`
(editor.go:71-86). -/
def editSpecs (structName : Str) (edits : List (Str × Str)) (src : Str) (m : Bool) :
    List SpecG → Str × Bool
  | [] => (src, m)
  | .typeSpec n body :: rest =>
      if n = structName then
        match body with
        | .structBody fields =>
            let r := editFields fields edits src
            editSpecs structName edits r.1 (m || r.2) rest
        | .nonStruct => editSpecs structName edits src m rest
      else editSpecs structName edits src m rest
  | _ :: rest => editSpecs structName edits src m rest

/-- The `for _, decl := range e.file.Decls` loop of `EditStruct`
(editor.go:65-87). -/
def editDecls (structName : Str) (edits : List (Str × Str)) (src : Str) (m : Bool) :
    List DeclG → Str × Bool
  | [] => (src, m)
  | .gen g :: rest =>
      if g.tok = GoTok.ttype then
        let r := editSpecs structName edits src m g.specs
        editDecls structName edits r.1 r.2 rest
      else editDecls structName edits src m rest
  | _ :: rest => editDecls structName edits src m rest

/-- `EditStruct` (editor.go:62-90).  The result is the updated editor, the
`modified` flag, and the returned `error`, which the source fixes to `nil`. -/
def editStruct (st : EState) (structName : Str) (edits : List (Str × Str)) :
    EState × Bool × Option Str :=
  let r := editDecls structName edits st.src false st.file.decls
  ({ st with src := r.1 }, r.2, none)

/-- The inner spec loop of `StructNames` (editor.go:51-57). -/
def specNames : List SpecG → List Str
  | [] => []
  | .typeSpec n _ :: rest => n :: specNames rest
  | .importSpec _ _ :: rest => specNames rest
  | .otherSpec :: rest => specNames rest

/-- The decl loop of `StructNames` (editor.go:46-58). -/
def structNamesRec : List DeclG → List Str
  | [] => []
  | .gen g :: rest =>
      if g.tok = GoTok.ttype then specNames g.specs ++ structNamesRec rest
      else structNamesRec rest
  | .func _ :: rest => structNamesRec rest
  | .bad :: rest => structNamesRec rest

/-- `StructNames` (editor.go:44-60). -/
def structNames (f : GoFileG) : List Str :=
  structNamesRec f.decls

/-- `ParseTypeString` (editor.go:155-167). -/
def parseTypeString (s : Str) : Str × Str × Bool :=
  let t := trimSpace s
  let isPtr := headEq '*' t
  let t2 := if isPtr then t.tail else t
  match splitOnceDot t2 with
  | some (q, r) => (q, r, isPtr)
  | none => ([], t2, isPtr)

/-- The loop body of `RequiredImports` (editor.go:171-176), threading the
`imports` map. -/
def requiredImportsRec (acc : List (Str × Str)) : List (Str × Str) → List (Str × Str)
  | [] => acc
  | (_, typeStr) :: rest =>
      let pkg := (parseTypeString typeStr).1
      if pkg = [] then requiredImportsRec acc rest
      else requiredImportsRec (insertL acc pkg pkg) rest

/-- `RequiredImports` (editor.go:169-178). -/
def requiredImports (fieldEdits : List (Str × Str)) : List (Str × Str) :=
  requiredImportsRec [] fieldEdits

/-- `parseQualifiedType` (config.go:211-218). -/
def parseQualifiedType (s : Str) : Str × Str × Bool :=
  let t := if headEq '*' s then s.tail else s
  match splitOnceDot t with
  | some (q, _) => (q, q, true)
  | none => ([], [], false)

/-! ## imports.go -/

/-- The alias under which `newImportManager` (imports.go:16-34) records one
entry of `file.Imports`: the explicit name if present, else the last segment
of the unquoted path. -/
def importAliasOf (sp : ImportSpecG) : Str :=
  match sp.name with
  | some n => n
  | none => lastSegment (goTrim '"' sp.pathValue)

/-- The `existing` map built by `newImportManager` (imports.go:17-28). -/
def buildExisting (imps : List ImportSpecG) : List (Str × Str) :=
  imps.foldl (fun m sp => insertL m (importAliasOf sp) (goTrim '"' sp.pathValue)) []

/-- `ParseFile` + `newImportManager`: assemble an editor state from a parsed
file and its source buffer. -/
def mkEditor (f : GoFileG) (src : Str) : EState :=
  { file := f, src := src, existing := buildExisting f.fimports }

/-- The `for alias, pkgPath := range required` loop of `add`
(imports.go:39-44): collect the genuinely new entries in iteration order
while updating the `existing` map. -/
def computeToAdd (existing : List (Str × Str)) :
    List (Str × Str) → List (Str × Str) × List (Str × Str)
  | [] => ([], existing)
  | (a, p) :: rest =>
      match lookupL existing a with
      | some _ => computeToAdd existing rest
      | none =>
          let r := computeToAdd (insertL existing a p) rest
          ((a, p) :: r.1, r.2)

/-- The loop of `findInsertPosition` (imports.go:79-89). -/
def findInsertPosRec (fileEnd : Nat) : List DeclG → Nat
  | [] => fileEnd
  | .gen g :: rest =>
      if g.tok = GoTok.timport then findInsertPosRec fileEnd rest else g.pos
  | .func p :: _ => p
  | .bad :: rest => findInsertPosRec fileEnd rest

/-- `findInsertPosition` (imports.go:78-91). -/
def findInsertPosition (f : GoFileG) : Nat :=
  findInsertPosRec f.fileEnd f.decls

/-- `findImportDecl` (imports.go:135-144): the first IMPORT `GenDecl`. -/
def findImportDecl : List DeclG → Option GenDeclG
  | [] => none
  | .gen g :: rest =>
      if g.tok = GoTok.timport then some g else findImportDecl rest
  | .func _ :: rest => findImportDecl rest
  | .bad :: rest => findImportDecl rest

/-- `specString` (imports.go:146-155). -/
def specString : SpecG → Str
  | .importSpec (some n) v => n ++ ' ' :: v
  | .importSpec none v => v
  | _ => []

/-- The rendering `fmt.Sprintf("\t\"%s\"", spec.path)` of a new entry. -/
def newEntryText (p : Str) : Str :=
  '\t' :: '"' :: (p ++ ['"'])

/-- `insertNewImportBlock` (imports.go:62-76). -/
def insertNewImportBlock (f : GoFileG) (toAdd : List (Str × Str)) (src : Str) : Str :=
  let start := findInsertPosition f
  let lines := ["import (".toList] ++ toAdd.map (fun ap => newEntryText ap.2) ++
    [")\n\n".toList]
  let newBlock := joinStr "\n".toList lines
  src.take start ++ newBlock ++ src.drop start

/-- `addToBlock` (imports.go:93-108). -/
def addToBlock (g : GenDeclG) (toAdd : List (Str × Str)) (src : Str) : Str :=
  let start := g.lparenOff
  let stop := g.rparenOff + 1
  let entries := g.specs.map (fun sp => '\t' :: specString sp) ++
    toAdd.map (fun ap => newEntryText ap.2)
  let newBlock := "(\n".toList ++ joinStr "\n".toList entries ++ "\n)".toList
  src.take start ++ newBlock ++ src.drop stop

/-- `convertToBlock` (imports.go:110-133): rewrite the first IMPORT decl into
block form, or fail with the source's error string. -/
def convertToBlockGo (toAdd : List (Str × Str)) (src : Str) :
    List DeclG → Except Str Str
  | [] => Except.error "no import declaration found".toList
  | .gen g :: rest =>
      if g.tok = GoTok.timport then
        let entries := g.specs.map (fun sp => '\t' :: specString sp) ++
          toAdd.map (fun ap => newEntryText ap.2)
        let newBlock := "import (\n".toList ++ joinStr "\n".toList entries ++ "\n)".toList
        Except.ok (src.take g.pos ++ newBlock ++ src.drop g.endPos)
      else convertToBlockGo toAdd src rest
  | .func _ :: rest => convertToBlockGo toAdd src rest
  | .bad :: rest => convertToBlockGo toAdd src rest

/-- The dispatch of `add` (imports.go:46-60) after the delta `toAdd` and the
updated `existing` map have been computed by the loop. -/
def addCore (st : EState) (toAdd newExisting : List (Str × Str)) :
    EState × Option Str :=
  let st' : EState := { st with existing := newExisting }
  if toAdd = [] then (st', none)
  else if st.file.fimports = [] then
    ({ st' with src := insertNewImportBlock st.file toAdd st.src }, none)
  else
    match findImportDecl st.file.decls with
    | some g =>
        if g.lparenValid then ({ st' with src := addToBlock g toAdd st.src }, none)
        else
          match convertToBlockGo toAdd st.src st.file.decls with
          | Except.ok s2 => ({ st' with src := s2 }, none)
          | Except.error e => (st', some e)
    | none =>
        match convertToBlockGo toAdd st.src st.file.decls with
        | Except.ok s2 => ({ st' with src := s2 }, none)
        | Except.error e => (st', some e)

/-- `importManager.add` (imports.go:36-60), which `AddImports`
(editor.go:143-145) forwards to. -/
def add (st : EState) (required : List (Str × Str)) : EState × Option Str :=
  addCore st (computeToAdd st.existing required).1 (computeToAdd st.existing required).2

/-! ## Concrete parsed files

Each example pairs a source buffer with the tree Go's parser produces for it;
the byte offsets are the ones `token.FileSet.Position` reports (spot-checked
character by character). -/

/-- `type Example struct { ID int64; Total *int64 }` on separate lines. -/
def exSrc1 : Str :=
  "package test\n\ntype Example struct \x7b\n\tID    int64\n\tTotal *int64\n\x7d\n".toList

def exFieldID : FieldG :=
  { names := ["ID".toList], typeExpr := .ident "int64".toList,
    typeStart := 43, typeEnd := 48 }

def exFieldTotal : FieldG :=
  { names := ["Total".toList], typeExpr := .star (.ident "int64".toList),
    typeStart := 56, typeEnd := 62 }

def exDecl1 : GenDeclG :=
  { tok := .ttype, pos := 14, endPos := 64, lparenValid := false,
    lparenOff := 0, rparenOff := 0,
    specs := [.typeSpec "Example".toList (.structBody [exFieldID, exFieldTotal])] }

def exFile1 : GoFileG :=
  { decls := [.gen exDecl1], fimports := [], fileEnd := 65 }

def exState1 : EState := mkEditor exFile1 exSrc1

/-- A struct with an embedded (anonymous) `Base` member between two named
fields. -/
def exSrc2 : Str :=
  "package test\n\ntype Example struct \x7b\n\tA int64\n\tBase\n\tB *int64\n\x7d\n".toList

def exFieldA : FieldG :=
  { names := ["A".toList], typeExpr := .ident "int64".toList,
    typeStart := 39, typeEnd := 44 }

def exFieldBase : FieldG :=
  { names := [], typeExpr := .ident "Base".toList, typeStart := 46, typeEnd := 50 }

def exFieldB : FieldG :=
  { names := ["B".toList], typeExpr := .star (.ident "int64".toList),
    typeStart := 54, typeEnd := 60 }

def exDecl2 : GenDeclG :=
  { tok := .ttype, pos := 14, endPos := 62, lparenValid := false,
    lparenOff := 0, rparenOff := 0,
    specs := [.typeSpec "Example".toList
      (.structBody [exFieldA, exFieldBase, exFieldB])] }

def exFile2 : GoFileG :=
  { decls := [.gen exDecl2], fimports := [], fileEnd := 63 }

def exState2 : EState := mkEditor exFile2 exSrc2

/-- A file with a single, non-block import statement. -/
def singleSrc : Str :=
  "package test\n\nimport \"fmt\"\n\ntype T struct \x7b\n\tA int\n\x7d\n".toList

def singleImportDecl : GenDeclG :=
  { tok := .timport, pos := 14, endPos := 26, lparenValid := false,
    lparenOff := 0, rparenOff := 0,
    specs := [.importSpec none "\"fmt\"".toList] }

def singleTypeDecl : GenDeclG :=
  { tok := .ttype, pos := 28, endPos := 52, lparenValid := false,
    lparenOff := 0, rparenOff := 0,
    specs := [.typeSpec "T".toList (.structBody
      [{ names := ["A".toList], typeExpr := .ident "int".toList,
         typeStart := 47, typeEnd := 50 }])] }

def singleFile : GoFileG :=
  { decls := [.gen singleImportDecl, .gen singleTypeDecl],
    fimports := [{ name := none, pathValue := "\"fmt\"".toList }], fileEnd := 53 }

def singleState : EState := mkEditor singleFile singleSrc

/-- A file with a block import statement. -/
def blockSrc : Str :=
  "package test\n\nimport (\n\t\"fmt\"\n)\n\ntype T struct \x7b\n\tA int\n\x7d\n".toList

def blockImportDecl : GenDeclG :=
  { tok := .timport, pos := 14, endPos := 31, lparenValid := true,
    lparenOff := 21, rparenOff := 30,
    specs := [.importSpec none "\"fmt\"".toList] }

def blockTypeDecl : GenDeclG :=
  { tok := .ttype, pos := 33, endPos := 57, lparenValid := false,
    lparenOff := 0, rparenOff := 0,
    specs := [.typeSpec "T".toList (.structBody
      [{ names := ["A".toList], typeExpr := .ident "int".toList,
         typeStart := 52, typeEnd := 55 }])] }

def blockFile : GoFileG :=
  { decls := [.gen blockImportDecl, .gen blockTypeDecl],
    fimports := [{ name := none, pathValue := "\"fmt\"".toList }], fileEnd := 58 }

def blockState : EState := mkEditor blockFile blockSrc

/-- A file whose block import binds `time` under the explicit alias
`mytime`. -/
def aliasSrc : Str :=
  "package test\n\nimport (\n\tmytime \"time\"\n)\n\ntype T struct \x7b\n\tA int\n\x7d\n".toList

def aliasImportDecl : GenDeclG :=
  { tok := .timport, pos := 14, endPos := 39, lparenValid := true,
    lparenOff := 21, rparenOff := 38,
    specs := [.importSpec (some "mytime".toList) "\"time\"".toList] }

def aliasTypeDecl : GenDeclG :=
  { tok := .ttype, pos := 41, endPos := 65, lparenValid := false,
    lparenOff := 0, rparenOff := 0,
    specs := [.typeSpec "T".toList (.structBody
      [{ names := ["A".toList], typeExpr := .ident "int".toList,
         typeStart := 60, typeEnd := 63 }])] }

def aliasFile : GoFileG :=
  { decls := [.gen aliasImportDecl, .gen aliasTypeDecl],
    fimports := [{ name := some "mytime".toList, pathValue := "\"time\"".toList }],
    fileEnd := 66 }

def aliasState : EState := mkEditor aliasFile aliasSrc

/-- The pathological state of imports.go:132: `file.Imports` is non-empty but
no IMPORT declaration exists among the decls. -/
def badFile : GoFileG :=
  { decls := [], fimports := [{ name := none, pathValue := "\"x\"".toList }],
    fileEnd := 0 }

def badState : EState := mkEditor badFile []

/-- A field whose source text `map[ string ]int` carries interior whitespace
that the tree-based rendering normalizes away. -/
def wsSrc : Str :=
  "package test\n\ntype Example struct \x7b\n\tData map[ string ]int\n\x7d\n".toList

def wsDecl : GenDeclG :=
  { tok := .ttype, pos := 14, endPos := 60, lparenValid := false,
    lparenOff := 0, rparenOff := 0,
    specs := [.typeSpec "Example".toList (.structBody
      [{ names := ["Data".toList],
         typeExpr := .mapT (.ident "string".toList) (.ident "int".toList),
         typeStart := 42, typeEnd := 58 }])] }

def wsFile : GoFileG :=
  { decls := [.gen wsDecl], fimports := [], fileEnd := 61 }

def wsState : EState := mkEditor wsFile wsSrc

/-- A file whose only `type` declaration is not a struct. -/
def nsSrc : Str := "package test\n\ntype ID int64\n".toList

def nsDecl : GenDeclG :=
  { tok := .ttype, pos := 14, endPos := 27, lparenValid := false,
    lparenOff := 0, rparenOff := 0,
    specs := [.typeSpec "ID".toList .nonStruct] }

def nsFile : GoFileG :=
  { decls := [.gen nsDecl], fimports := [], fileEnd := 28 }

def nsState : EState := mkEditor nsFile nsSrc

/-! ## No-op conditions for `EditStruct`

`EditStruct` leaves the buffer untouched exactly when no matched field both
occurs in the edit map and renders differently from the requested text.  The
conditions are phrased as executable `Bool` checks so concrete instances can
be discharged by `decide`. -/

/-- Every edit-map hit on `f`'s names asks for `f`'s own rendering. -/
def noopFieldB (edits : List (Str × Str)) (f : FieldG) : Bool :=
  f.names.all (fun nm =>
    match lookupL edits nm with
    | some t => typeString f.typeExpr == t
    | none => true)

/-- All hits inside a spec that `EditStruct` would edit are no-ops. -/
def noopSpecB (structName : Str) (edits : List (Str × Str)) : SpecG → Bool
  | .typeSpec n (.structBody fields) =>
      if n = structName then fields.all (noopFieldB edits) else true
  | _ => true

/-- Lift a per-spec check over the decls `EditStruct` visits (TYPE GenDecls). -/
def liftSpecsB (p : SpecG → Bool) : DeclG → Bool
  | .gen g => if g.tok = GoTok.ttype then g.specs.all p else true
  | _ => true

/-- All hits in the whole file are no-ops. -/
def noopDeclsB (structName : Str) (edits : List (Str × Str)) (decls : List DeclG) : Bool :=
  decls.all (liftSpecsB (noopSpecB structName edits))

/-- None of `f`'s names occurs in the edit map at all. -/
def fieldMissB (edits : List (Str × Str)) (f : FieldG) : Bool :=
  f.names.all (fun nm => (lookupL edits nm).isNone)

/-- The matched struct's field names are disjoint from the edit map. -/
def specMissB (structName : Str) (edits : List (Str × Str)) : SpecG → Bool
  | .typeSpec n (.structBody fields) =>
      if n = structName then fields.all (fieldMissB edits) else true
  | _ => true

/-- Every spec carrying the requested name is not a struct type. -/
def specNonStructB (structName : Str) : SpecG → Bool
  | .typeSpec n body =>
      if n = structName then
        match body with
        | .structBody _ => false
        | .nonStruct => true
      else true
  | _ => true

lemma eq_of_beq_str {a b : Str} (h : (a == b) = true) : a = b := eq_of_beq h

lemma editNames_noop (edits : List (Str × Str)) (f : FieldG) (src : Str) (m : Bool)
    (names : List Str)
    (h : names.all (fun nm =>
      match lookupL edits nm with
      | some t => typeString f.typeExpr == t
      | none => true) = true) :
    editNames edits f src m names = (src, m) := by
  induction names with
  | nil => rfl
  | cons n rest ih =>
    simp only [List.all_cons, Bool.and_eq_true] at h
    obtain ⟨h1, h2⟩ := h
    cases hl : lookupL edits n with
    | none => simp only [editNames, hl]; exact ih h2
    | some t =>
      rw [hl] at h1
      have ht : typeString f.typeExpr = t := eq_of_beq_str h1
      simp only [editNames, hl, if_pos ht]
      exact ih h2

lemma editFieldsRec_noop (edits : List (Str × Str)) (src : Str) (m : Bool)
    (fields : List FieldG) (h : fields.all (noopFieldB edits) = true) :
    editFieldsRec edits src m fields = (src, m) := by
  induction fields with
  | nil => rfl
  | cons f rest ih =>
    simp only [List.all_cons, Bool.and_eq_true] at h
    obtain ⟨h1, h2⟩ := h
    by_cases he : f.names = []
    · simp only [editFieldsRec, if_pos he]; exact ih h2
    · simp only [editFieldsRec, if_neg he,
        editNames_noop edits f src m f.names h1]
      exact ih h2

lemma editFields_noop (fields : List FieldG) (edits : List (Str × Str)) (src : Str)
    (h : fields.all (noopFieldB edits) = true) :
    editFields fields edits src = (src, false) :=
  editFieldsRec_noop edits src false fields h

lemma editSpecs_noop (structName : Str) (edits : List (Str × Str)) (src : Str)
    (m : Bool) (specs : List SpecG)
    (h : specs.all (noopSpecB structName edits) = true) :
    editSpecs structName edits src m specs = (src, m) := by
  induction specs with
  | nil => rfl
  | cons sp rest ih =>
    simp only [List.all_cons, Bool.and_eq_true] at h
    obtain ⟨h1, h2⟩ := h
    cases sp with
    | typeSpec n body =>
      by_cases hn : n = structName
      · cases body with
        | structBody fields =>
          rw [noopSpecB, if_pos hn] at h1
          simp only [editSpecs, if_pos hn,
            editFields_noop fields edits src h1, Bool.or_false]
          exact ih h2
        | nonStruct => simp only [editSpecs, if_pos hn]; exact ih h2
      · simp only [editSpecs, if_neg hn]; exact ih h2
    | importSpec nm v => simp only [editSpecs]; exact ih h2
    | otherSpec => simp only [editSpecs]; exact ih h2

lemma editDecls_noop (structName : Str) (edits : List (Str × Str)) (src : Str)
    (m : Bool) (decls : List DeclG)
    (h : decls.all (liftSpecsB (noopSpecB structName edits)) = true) :
    editDecls structName edits src m decls = (src, m) := by
  induction decls with
  | nil => rfl
  | cons d rest ih =>
    simp only [List.all_cons, Bool.and_eq_true] at h
    obtain ⟨h1, h2⟩ := h
    cases d with
    | gen g =>
      by_cases ht : g.tok = GoTok.ttype
      · rw [liftSpecsB, if_pos ht] at h1
        simp only [editDecls, if_pos ht,
          editSpecs_noop structName edits src m g.specs h1]
        exact ih h2
      · simp only [editDecls, if_neg ht]; exact ih h2
    | func p => simp only [editDecls]; exact ih h2
    | bad => simp only [editDecls]; exact ih h2

/-- The core no-op fact: if every hit is a no-op, `EditStruct` returns the
state unchanged, `modified = false` and a `nil` error. -/
lemma editStruct_noop (st : EState) (structName : Str) (edits : List (Str × Str))
    (h : noopDeclsB structName edits st.file.decls = true) :
    editStruct st structName edits = (st, false, none) := by
  unfold editStruct
  rw [editDecls_noop structName edits st.src false st.file.decls h]

/-- One Bool check implies another pointwise over a list. -/
lemma all_imp {α : Type} (p q : α → Bool) (l : List α)
    (h : ∀ a, p a = true → q a = true) (hl : l.all p = true) : l.all q = true := by
  rw [List.all_eq_true] at hl ⊢
  exact fun a ha => h a (hl a ha)

lemma noopFieldB_of_miss (edits : List (Str × Str)) (f : FieldG)
    (h : fieldMissB edits f = true) : noopFieldB edits f = true := by
  unfold fieldMissB at h
  unfold noopFieldB
  refine all_imp _ _ _ (fun nm hm => ?_) h
  cases hl : lookupL edits nm with
  | none => rfl
  | some t => rw [hl] at hm; simp at hm


lemma noopSpecB_of_miss (structName : Str) (edits : List (Str × Str)) (sp : SpecG)
    (h : specMissB structName edits sp = true) :
    noopSpecB structName edits sp = true := by
  cases sp with
  | typeSpec n body =>
    cases body with
    | structBody fields =>
      by_cases hn : n = structName
      · rw [specMissB, if_pos hn] at h
        rw [noopSpecB, if_pos hn]
        exact all_imp _ _ _ (noopFieldB_of_miss edits) h
      · rw [noopSpecB, if_neg hn]
    | nonStruct => rfl
  | importSpec nm v => rfl
  | otherSpec => rfl

lemma noopSpecB_of_nonStruct (structName : Str) (edits : List (Str × Str)) (sp : SpecG)
    (h : specNonStructB structName sp = true) :
    noopSpecB structName edits sp = true := by
  cases sp with
  | typeSpec n body =>
    cases body with
    | structBody fields =>
      by_cases hn : n = structName
      · rw [specNonStructB, if_pos hn] at h
        exact absurd h (by simp)
      · rw [noopSpecB, if_neg hn]
    | nonStruct => rfl
  | importSpec nm v => rfl
  | otherSpec => rfl

lemma liftSpecsB_imp (p q : SpecG → Bool) (d : DeclG)
    (h : ∀ sp, p sp = true → q sp = true) (hd : liftSpecsB p d = true) :
    liftSpecsB q d = true := by
  cases d with
  | gen g =>
    by_cases ht : g.tok = GoTok.ttype
    · rw [liftSpecsB, if_pos ht] at hd ⊢
      exact all_imp _ _ _ h hd
    · rw [liftSpecsB, if_neg ht]
  | func p2 => rfl
  | bad => rfl

lemma mem_specNames (n : Str) (body : TypeSpecBody) (specs : List SpecG)
    (h : SpecG.typeSpec n body ∈ specs) : n ∈ specNames specs := by
  induction specs with
  | nil => cases h
  | cons sp rest ih =>
    rcases List.mem_cons.mp h with h1 | h1
    · rw [← h1, specNames]; exact List.mem_cons_self _ _
    · cases sp with
      | typeSpec n2 b2 => rw [specNames]; exact List.mem_cons_of_mem _ (ih h1)
      | importSpec nm v => rw [specNames]; exact ih h1
      | otherSpec => rw [specNames]; exact ih h1

lemma noopSpecB_of_not_memNames (structName : Str) (edits : List (Str × Str))
    (specs : List SpecG) (h : structName ∉ specNames specs) :
    specs.all (noopSpecB structName edits) = true := by
  rw [List.all_eq_true]
  intro sp hsp
  cases sp with
  | typeSpec n body =>
    by_cases hn : n = structName
    · exact absurd (hn ▸ mem_specNames n body specs hsp) h
    · cases body with
      | structBody fields => rw [noopSpecB, if_neg hn]
      | nonStruct => rfl
  | importSpec nm v => rfl
  | otherSpec => rfl

lemma noopDeclsB_of_not_mem (structName : Str) (edits : List (Str × Str))
    (decls : List DeclG) (h : structName ∉ structNamesRec decls) :
    decls.all (liftSpecsB (noopSpecB structName edits)) = true := by
  induction decls with
  | nil => rfl
  | cons d rest ih =>
    cases d with
    | gen g =>
      by_cases ht : g.tok = GoTok.ttype
      · rw [structNamesRec, if_pos ht, List.mem_append] at h
        rw [List.all_cons, Bool.and_eq_true]
        refine ⟨?_, ih (fun hm => h (Or.inr hm))⟩
        rw [liftSpecsB, if_pos ht]
        exact noopSpecB_of_not_memNames structName edits g.specs (fun hm => h (Or.inl hm))
      · rw [structNamesRec, if_neg ht] at h
        rw [List.all_cons, Bool.and_eq_true]
        exact ⟨by rw [liftSpecsB, if_neg ht], ih h⟩
    | func p =>
      rw [structNamesRec] at h
      rw [List.all_cons, Bool.and_eq_true]
      exact ⟨rfl, ih h⟩
    | bad =>
      rw [structNamesRec] at h
      rw [List.all_cons, Bool.and_eq_true]
      exact ⟨rfl, ih h⟩

/-! ## Claim theorems for the splice editor -/

/-- C1.  The spec requires that two edits to named fields of one declaration,
both with length-changing replacement texts, land at the textually correct
locations independent of application order.  The code instead splices each
edit immediately (editor.go:111, 136-141) at offsets from the original parse,
so after `ID: int64 -> string` shifts the buffer by one byte, the edit
`Total: *int64 -> uint8` lands one byte to the left: the result reads
`Totaluint84`, not `Total uint8`.  This evaluates the code at that input. -/
theorem c1_multi_edit_misplaces_second_replacement :
    (editStruct exState1 "Example".toList
        [("ID".toList, "string".toList), ("Total".toList, "uint8".toList)]).1.src =
      "package test\n\ntype Example struct \x7b\n\tID    string\n\tTotaluint84\n\x7d\n".toList ∧
    hasSeg "ID    string".toList
      (editStruct exState1 "Example".toList
        [("ID".toList, "string".toList), ("Total".toList, "uint8".toList)]).1.src = true ∧
    hasSeg "Total uint8".toList
      (editStruct exState1 "Example".toList
        [("ID".toList, "string".toList), ("Total".toList, "uint8".toList)]).1.src = false := by
  refine ⟨by decide, by decide, by decide⟩

/-- C2.  The spec requires every byte outside the union of the edited spans
to survive an edit set unchanged.  For the same two edits as in C1, the
inter-field bytes `"\n\tTotal "` (offsets 48-55 of the original buffer, which
lie outside both edited spans [43,48) and [56,62)) are present in the
original but destroyed in the result. -/
theorem c2_bytes_outside_spans_not_preserved :
    hasSeg "\n\tTotal ".toList exSrc1 = true ∧
    hasSeg "\n\tTotal ".toList
      (editStruct exState1 "Example".toList
        [("ID".toList, "string".toList), ("Total".toList, "uint8".toList)]).1.src = false := by
  refine ⟨by decide, by decide⟩

/-- C10.  Anonymous fields are skipped by the name loop (editor.go:95-98),
but their bytes are not immune to the stale-offset splices of other edits:
after `A: int64 -> LongTypeName1` (+8 bytes), the splice for
`B: *int64 -> uint64` covers original offsets 46-52 and erases the embedded
member `Base` entirely.  This evaluates the code at that input. -/
theorem c10_anonymous_field_bytes_clobbered :
    exFieldBase.names = [] ∧
    hasSeg "Base".toList exSrc2 = true ∧
    (editStruct exState2 "Example".toList
        [("A".toList, "LongTypeName1".toList), ("B".toList, "uint64".toList)]).1.src =
      "package test\n\ntype Example struct \x7b\n\tA LongTypeName1\n\tuint64B *int64\n\x7d\n".toList ∧
    hasSeg "Base".toList
      (editStruct exState2 "Example".toList
        [("A".toList, "LongTypeName1".toList), ("B".toList, "uint64".toList)]).1.src = false := by
  refine ⟨by decide, by decide, by decide, by decide⟩

/-- C4.  The no-op test compares the requested text against the rendering of
the parsed tree (editor.go:106-109): whenever every hit of the edit map on a
matched field requests exactly `typeString` of that field's parsed type, the
buffer is returned byte-identical with `modified = false` and a `nil`
error. -/
theorem c4_noop_edit_render_equal (st : EState) (structName : Str)
    (edits : List (Str × Str))
    (h : noopDeclsB structName edits st.file.decls = true) :
    editStruct st structName edits = (st, false, none) :=
  editStruct_noop st structName edits h

/-- C4 witness: the buffer spells the field type `map[ string ]int` but the
tree renders `map[string]int`, so requesting `map[string]int` is a no-op. -/
theorem c4_noop_edit_render_equal_check :
    editStruct wsState "Example".toList
        [("Data".toList, "map[string]int".toList)] = (wsState, false, none) ∧
    hasSeg "map[ string ]int".toList wsSrc = true :=
  ⟨c4_noop_edit_render_equal wsState "Example".toList
      [("Data".toList, "map[string]int".toList)] (by decide), by decide⟩

/-- C6.  No-match conditions are not errors: if the declaration name is
absent, or the matched declarations' fields never occur in the edit map, or
every declaration of that name is not a struct, or every hit requests the
current rendering, then `EditStruct` returns `modified = false`, a `nil`
error, and the untouched state. -/
theorem c6_no_match_conditions_not_error (st : EState) (structName : Str)
    (edits : List (Str × Str))
    (h : structName ∉ structNames st.file ∨
      st.file.decls.all (liftSpecsB (specMissB structName edits)) = true ∨
      st.file.decls.all (liftSpecsB (specNonStructB structName)) = true ∨
      noopDeclsB structName edits st.file.decls = true) :
    editStruct st structName edits = (st, false, none) := by
  apply editStruct_noop
  unfold noopDeclsB
  rcases h with h | h | h | h
  · exact noopDeclsB_of_not_mem structName edits st.file.decls h
  · exact all_imp _ _ _
      (fun d => liftSpecsB_imp _ _ d (noopSpecB_of_miss structName edits)) h
  · exact all_imp _ _ _
      (fun d => liftSpecsB_imp _ _ d (noopSpecB_of_nonStruct structName edits)) h
  · exact h

/-- C6 witness: all four no-match conditions on concrete files — absent
declaration, absent field, non-struct declaration, and identical type. -/
theorem c6_no_match_conditions_not_error_check :
    editStruct exState1 "Order".toList [("ID".toList, "string".toList)] =
      (exState1, false, none) ∧
    editStruct exState1 "Example".toList [("Missing".toList, "string".toList)] =
      (exState1, false, none) ∧
    editStruct nsState "ID".toList [("Foo".toList, "string".toList)] =
      (nsState, false, none) ∧
    editStruct exState1 "Example".toList [("ID".toList, "int64".toList)] =
      (exState1, false, none) :=
  ⟨c6_no_match_conditions_not_error exState1 "Order".toList
      [("ID".toList, "string".toList)] (Or.inl (by decide)),
   c6_no_match_conditions_not_error exState1 "Example".toList
      [("Missing".toList, "string".toList)] (Or.inr (Or.inl (by decide))),
   c6_no_match_conditions_not_error nsState "ID".toList
      [("Foo".toList, "string".toList)] (Or.inr (Or.inr (Or.inl (by decide)))),
   c6_no_match_conditions_not_error exState1 "Example".toList
      [("ID".toList, "int64".toList)] (Or.inr (Or.inr (Or.inr (by decide))))⟩

/-- C9 counterexample: the claim asserts unconditionally that a second
identical `EditStruct` call "again reports modified=true and splices again".
After the shrinking edit `Data: map[ string ]int -> int64` the buffer has 50
bytes, but the stale span end is 58: the second call evaluates `e.src[58:]`
on a 50-byte buffer, which panics in Go (slice bounds out of range), so the
program crashes rather than reporting `modified = true` — the checked splice
has no result at those offsets. -/
theorem c9_reedit_out_of_range_panics :
    editStruct wsState "Example".toList [("Data".toList, "int64".toList)] =
      ({ wsState with src := replaceType wsSrc 42 58 "int64".toList },
        true, none) ∧
    (replaceType wsSrc 42 58 "int64".toList).length = 50 ∧
    replaceTypeChecked (replaceType wsSrc 42 58 "int64".toList) 42 58
      "int64".toList = none := by
  refine ⟨by decide, by decide, by decide⟩

/-- C9 (amended).  The no-op comparison always reads the parse-time tree,
never the buffer, and splices at parse-time offsets: for a file holding one
struct with one named field whose rendered type differs from the requested
text, the first `EditStruct` call splices and reports `modified = true`, and
an identical second call — although the buffer already contains the new
text — again reports `modified = true` and splices again at the same
original-parse offsets into the already-mutated buffer, PROVIDED those stale
offsets still lie within each buffer (the checked splice succeeds, so Go does
not panic).  When an earlier shrinking edit leaves the stale end offset
beyond the buffer, Go instead panics (see the counterexample). -/
theorem c9_reedit_splices_stale_offsets (st : EState) (sName fName nt : Str)
    (expr : TypeExpr) (a b dpos dend lp rp : Nat) (lv : Bool)
    (hdecls : st.file.decls = [DeclG.gen
      { tok := .ttype, pos := dpos, endPos := dend, lparenValid := lv,
        lparenOff := lp, rparenOff := rp,
        specs := [.typeSpec sName (.structBody
          [{ names := [fName], typeExpr := expr, typeStart := a, typeEnd := b }])] }])
    (hne : typeString expr ≠ nt) (hab : a ≤ b) (hb0 : b ≤ st.src.length)
    (hb1 : b ≤ (replaceType st.src a b nt).length) :
    replaceTypeChecked st.src a b nt = some (replaceType st.src a b nt) ∧
    editStruct st sName [(fName, nt)] =
      ({ st with src := replaceType st.src a b nt }, true, none) ∧
    replaceTypeChecked (replaceType st.src a b nt) a b nt =
      some (replaceType (replaceType st.src a b nt) a b nt) ∧
    editStruct (editStruct st sName [(fName, nt)]).1 sName [(fName, nt)] =
      ({ st with src := replaceType (replaceType st.src a b nt) a b nt },
        true, none) := by
  have key : ∀ s : Str,
      editDecls sName [(fName, nt)] s false st.file.decls =
        (replaceType s a b nt, true) := by
    intro s
    rw [hdecls]
    simp [editDecls, editSpecs, editFields, editFieldsRec, editNames, lookupL, hne]
  refine ⟨?_, ?_, ?_, ?_⟩
  · rw [replaceTypeChecked, if_pos ⟨hab.trans hb0, hb0⟩]
    rfl
  · unfold editStruct
    rw [key st.src]
  · rw [replaceTypeChecked, if_pos ⟨hab.trans hb1, hb1⟩]
    rfl
  · unfold editStruct
    rw [key st.src]
    rw [key (replaceType st.src a b nt)]

/-- C9 witness: the single-field `wsState` file with the growing replacement
`VeryLongGenericType9` (16 -> 20 bytes), which keeps both splices in bounds;
two identical calls both report `modified = true`, and the second splice at
the stale offsets of the grown buffer yields the visibly corrupted
`Data VeryLongGenericType9ype9`. -/
theorem c9_reedit_splices_stale_offsets_check :
    replaceTypeChecked wsSrc 42 58 "VeryLongGenericType9".toList =
      some (replaceType wsSrc 42 58 "VeryLongGenericType9".toList) ∧
    editStruct wsState "Example".toList
        [("Data".toList, "VeryLongGenericType9".toList)] =
      ({ wsState with
          src := replaceType wsSrc 42 58 "VeryLongGenericType9".toList },
        true, none) ∧
    replaceTypeChecked (replaceType wsSrc 42 58 "VeryLongGenericType9".toList)
        42 58 "VeryLongGenericType9".toList =
      some (replaceType (replaceType wsSrc 42 58 "VeryLongGenericType9".toList)
        42 58 "VeryLongGenericType9".toList) ∧
    editStruct (editStruct wsState "Example".toList
        [("Data".toList, "VeryLongGenericType9".toList)]).1 "Example".toList
        [("Data".toList, "VeryLongGenericType9".toList)] =
      ({ wsState with
          src := replaceType (replaceType wsSrc 42 58
            "VeryLongGenericType9".toList) 42 58
            "VeryLongGenericType9".toList }, true, none) ∧
    replaceType (replaceType wsSrc 42 58 "VeryLongGenericType9".toList) 42 58
        "VeryLongGenericType9".toList =
      "package test\n\ntype Example struct \x7b\n\tData VeryLongGenericType9ype9\n\x7d\n".toList :=
  ⟨(c9_reedit_splices_stale_offsets wsState "Example".toList "Data".toList
      "VeryLongGenericType9".toList
      (.mapT (.ident "string".toList) (.ident "int".toList))
      42 58 14 60 0 0 false rfl (by decide) (by decide) (by decide)
      (by decide)).1,
   (c9_reedit_splices_stale_offsets wsState "Example".toList "Data".toList
      "VeryLongGenericType9".toList
      (.mapT (.ident "string".toList) (.ident "int".toList))
      42 58 14 60 0 0 false rfl (by decide) (by decide) (by decide)
      (by decide)).2.1,
   (c9_reedit_splices_stale_offsets wsState "Example".toList "Data".toList
      "VeryLongGenericType9".toList
      (.mapT (.ident "string".toList) (.ident "int".toList))
      42 58 14 60 0 0 false rfl (by decide) (by decide) (by decide)
      (by decide)).2.2.1,
   (c9_reedit_splices_stale_offsets wsState "Example".toList "Data".toList
      "VeryLongGenericType9".toList
      (.mapT (.ident "string".toList) (.ident "int".toList))
      42 58 14 60 0 0 false rfl (by decide) (by decide) (by decide)
      (by decide)).2.2.2,
   by decide⟩

/-! ## Lemmas about the import manager -/

lemma lookupL_insertL_self (m : List (Str × Str)) (a v : Str) :
    lookupL (insertL m a v) a = some v := by
  induction m with
  | nil => simp [insertL, lookupL]
  | cons kv rest ih =>
    obtain ⟨k, w⟩ := kv
    by_cases hk : k = a
    · rw [insertL, if_pos hk, lookupL, if_pos rfl]
    · rw [insertL, if_neg hk, lookupL, if_neg hk]
      exact ih

lemma computeToAdd_single_new (ex : List (Str × Str)) (a p : Str)
    (h : lookupL ex a = none) :
    computeToAdd ex [(a, p)] = ([(a, p)], insertL ex a p) := by
  rw [computeToAdd, h]
  rfl

lemma computeToAdd_nil_snd (ex : List (Str × Str)) (req : List (Str × Str))
    (h : (computeToAdd ex req).1 = []) : (computeToAdd ex req).2 = ex := by
  induction req generalizing ex with
  | nil => rfl
  | cons ap rest ih =>
    obtain ⟨a, p⟩ := ap
    cases hl : lookupL ex a with
    | some q =>
      rw [computeToAdd, hl] at h ⊢
      exact ih ex h
    | none =>
      rw [computeToAdd, hl] at h
      exact absurd h (by simp)

lemma addCore_existing (st : EState) (toAdd ex2 : List (Str × Str)) :
    ((addCore st toAdd ex2).1).existing = ex2 := by
  unfold addCore
  split
  · rfl
  · split
    · rfl
    · split
      · split
        · rfl
        · split
          · rfl
          · rfl
      · split
        · rfl
        · rfl

lemma add_existing (st : EState) (required : List (Str × Str)) :
    ((add st required).1).existing = (computeToAdd st.existing required).2 :=
  addCore_existing st _ _

lemma addCore_noAdd (st : EState) (ex2 : List (Str × Str)) :
    addCore st [] ex2 = ({ st with existing := ex2 }, none) := by
  simp [addCore]

lemma addCore_fresh (st : EState) (toAdd ex2 : List (Str × Str))
    (h1 : toAdd ≠ []) (h2 : st.file.fimports = []) :
    addCore st toAdd ex2 =
      ({ st with
          existing := ex2,
          src := insertNewImportBlock st.file toAdd st.src }, none) := by
  simp [addCore, h1, h2]

lemma addCore_block (st : EState) (toAdd ex2 : List (Str × Str)) (g : GenDeclG)
    (h1 : toAdd ≠ []) (h2 : st.file.fimports ≠ [])
    (hf : findImportDecl st.file.decls = some g) (hlp : g.lparenValid = true) :
    addCore st toAdd ex2 =
      ({ st with existing := ex2, src := addToBlock g toAdd st.src }, none) := by
  simp [addCore, h1, h2, hf, hlp]

lemma convertToBlockGo_found (decls : List DeclG) (g : GenDeclG)
    (toAdd : List (Str × Str)) (src : Str)
    (h : findImportDecl decls = some g) :
    convertToBlockGo toAdd src decls = Except.ok
      (src.take g.pos ++
        ("import (\n".toList ++
          joinStr "\n".toList (g.specs.map (fun sp => '\t' :: specString sp) ++
            toAdd.map (fun ap => newEntryText ap.2)) ++ "\n)".toList) ++
        src.drop g.endPos) := by
  induction decls with
  | nil => exact absurd h (by simp [findImportDecl])
  | cons d rest ih =>
    cases d with
    | gen g2 =>
      by_cases ht : g2.tok = GoTok.timport
      · rw [findImportDecl, if_pos ht] at h
        injection h with h
        subst h
        simp only [convertToBlockGo, if_pos ht]
      · rw [findImportDecl, if_neg ht] at h
        simp only [convertToBlockGo, if_neg ht]
        exact ih h
    | func p =>
      rw [findImportDecl] at h
      simp only [convertToBlockGo]
      exact ih h
    | bad =>
      rw [findImportDecl] at h
      simp only [convertToBlockGo]
      exact ih h

lemma convertToBlockGo_none (decls : List DeclG) (toAdd : List (Str × Str))
    (src : Str) (h : findImportDecl decls = none) :
    convertToBlockGo toAdd src decls =
      Except.error "no import declaration found".toList := by
  induction decls with
  | nil => rfl
  | cons d rest ih =>
    cases d with
    | gen g2 =>
      by_cases ht : g2.tok = GoTok.timport
      · rw [findImportDecl, if_pos ht] at h
        exact absurd h (by simp)
      · rw [findImportDecl, if_neg ht] at h
        simp only [convertToBlockGo, if_neg ht]
        exact ih h
    | func p =>
      rw [findImportDecl] at h
      simp only [convertToBlockGo]
      exact ih h
    | bad =>
      rw [findImportDecl] at h
      simp only [convertToBlockGo]
      exact ih h

lemma addCore_convert (st : EState) (toAdd ex2 : List (Str × Str)) (g : GenDeclG)
    (h1 : toAdd ≠ []) (h2 : st.file.fimports ≠ [])
    (hf : findImportDecl st.file.decls = some g) (hlp : g.lparenValid = false) :
    addCore st toAdd ex2 =
      ({ st with
          existing := ex2,
          src := st.src.take g.pos ++
            ("import (\n".toList ++
              joinStr "\n".toList (g.specs.map (fun sp => '\t' :: specString sp) ++
                toAdd.map (fun ap => newEntryText ap.2)) ++ "\n)".toList) ++
            st.src.drop g.endPos }, none) := by
  simp [addCore, h1, h2, hf, hlp, convertToBlockGo_found st.file.decls g toAdd st.src hf]

lemma addCore_fail (st : EState) (toAdd ex2 : List (Str × Str))
    (h1 : toAdd ≠ []) (h2 : st.file.fimports ≠ [])
    (hf : findImportDecl st.file.decls = none) :
    addCore st toAdd ex2 =
      ({ st with existing := ex2 }, some "no import declaration found".toList) := by
  simp [addCore, h1, h2, hf, convertToBlockGo_none st.file.decls toAdd st.src hf]


/-! ## Claim theorems for the import synthesizer -/

/-- C3.  The import-shape state machine of `add`: with a genuinely new
`(alias, path)` requirement, (1) a file with no imports gains a fresh block
holding exactly the one new entry at the insert position; (2) a file whose
first import declaration is a single non-block statement has that statement's
span rewritten to a block holding the original entry followed by the new one;
(3) a file with a block import has only the parenthesized region rewritten to
the original entries, in order, with the new entry appended — so a block file
stays a block (the state is terminal). -/
theorem c3_import_state_transitions (st : EState) (a p : Str)
    (hnew : lookupL st.existing a = none) :
    (st.file.fimports = [] →
      add st [(a, p)] =
        ({ st with
            existing := insertL st.existing a p,
            src := st.src.take (findInsertPosition st.file) ++
              ("import (\n\t\"".toList ++ p ++ "\"\n)\n\n".toList) ++
              st.src.drop (findInsertPosition st.file) }, none)) ∧
    (∀ g sp0, st.file.fimports ≠ [] → findImportDecl st.file.decls = some g →
      g.lparenValid = false → g.specs = [sp0] →
      add st [(a, p)] =
        ({ st with
            existing := insertL st.existing a p,
            src := st.src.take g.pos ++
              ("import (\n\t".toList ++ specString sp0 ++
                ("\n\t\"".toList ++ p ++ "\"\n)".toList)) ++
              st.src.drop g.endPos }, none)) ∧
    (∀ g, st.file.fimports ≠ [] → findImportDecl st.file.decls = some g →
      g.lparenValid = true →
      add st [(a, p)] =
        ({ st with
            existing := insertL st.existing a p,
            src := st.src.take g.lparenOff ++
              ("(\n".toList ++ joinStr "\n".toList
                (g.specs.map (fun sp => '\t' :: specString sp) ++ [newEntryText p]) ++
                "\n)".toList) ++
              st.src.drop (g.rparenOff + 1) }, none)) := by
  have hta := computeToAdd_single_new st.existing a p hnew
  have hne : ([(a, p)] : List (Str × Str)) ≠ [] := by simp
  refine ⟨fun hemp => ?_, fun g sp0 himp hfind hlp hsp => ?_,
    fun g himp hfind hlp => ?_⟩
  · unfold add
    rw [hta]
    rw [addCore_fresh st [(a, p)] (insertL st.existing a p) hne hemp]
    simp [insertNewImportBlock, joinStr, newEntryText, List.append_assoc]
  · unfold add
    rw [hta]
    rw [addCore_convert st [(a, p)] (insertL st.existing a p) g hne himp hfind hlp]
    rw [hsp]
    simp [joinStr, newEntryText, List.append_assoc]
  · unfold add
    rw [hta]
    rw [addCore_block st [(a, p)] (insertL st.existing a p) g hne himp hfind hlp]
    simp [addToBlock]

/-- C3 witness: the three transitions on concrete files — no imports
(`exState1`), a single `import "fmt"` (`singleState`), and a block
`import (\n\t"fmt"\n)` (`blockState`) — each gaining `"time"`. -/
theorem c3_import_state_transitions_check :
    (add exState1 [("time".toList, "time".toList)]).1.src =
      ("package test\n\nimport (\n\t\"time\"\n)\n\n" ++
        "type Example struct \x7b\n\tID    int64\n\tTotal *int64\n\x7d\n").toList ∧
    (add singleState [("time".toList, "time".toList)]).1.src =
      "package test\n\nimport (\n\t\"fmt\"\n\t\"time\"\n)\n\ntype T struct \x7b\n\tA int\n\x7d\n".toList ∧
    (add blockState [("time".toList, "time".toList)]).1.src =
      "package test\n\nimport (\n\t\"fmt\"\n\t\"time\"\n)\n\ntype T struct \x7b\n\tA int\n\x7d\n".toList := by
  refine ⟨?_, ?_, ?_⟩
  · rw [(c3_import_state_transitions exState1 "time".toList "time".toList
      (by decide)).1 (by decide)]
    decide
  · rw [(c3_import_state_transitions singleState "time".toList "time".toList
      (by decide)).2.1 singleImportDecl (SpecG.importSpec none "\"fmt\"".toList)
      (by decide) (by decide) (by decide) (by decide)]
    decide
  · rw [(c3_import_state_transitions blockState "time".toList "time".toList
      (by decide)).2.2 blockImportDecl (by decide) (by decide) (by decide)]
    decide

/-- C5.  Import idempotence per alias: a duplicate `(alias, path)` inside one
call collapses to a single entry (the call equals the single-request call); a
repeat call after a successful add is a no-op returning `nil`; and a
required import whose alias is already bound — to any path, however the
binding arose — adds nothing and returns `nil`. -/
theorem c5_import_idempotent_per_alias (st : EState) (a p : Str) :
    (lookupL st.existing a = none →
      add st [(a, p), (a, p)] = add st [(a, p)] ∧
      add (add st [(a, p)]).1 [(a, p)] = ((add st [(a, p)]).1, none)) ∧
    (∀ q, lookupL st.existing a = some q → add st [(a, p)] = (st, none)) := by
  refine ⟨fun hnew => ⟨?_, ?_⟩, fun q hq => ?_⟩
  · have hdup : computeToAdd st.existing [(a, p), (a, p)] =
        computeToAdd st.existing [(a, p)] := by
      simp [computeToAdd, hnew, lookupL_insertL_self]
    unfold add
    rw [hdup]
  · have hta := computeToAdd_single_new st.existing a p hnew
    have hex : ((add st [(a, p)]).1).existing = insertL st.existing a p := by
      rw [add_existing, hta]
    have h2 : computeToAdd ((add st [(a, p)]).1).existing [(a, p)] =
        ([], ((add st [(a, p)]).1).existing) := by
      rw [hex]
      simp [computeToAdd, lookupL_insertL_self]
    have hu : add ((add st [(a, p)]).1) [(a, p)] =
        addCore ((add st [(a, p)]).1)
          (computeToAdd ((add st [(a, p)]).1).existing [(a, p)]).1
          (computeToAdd ((add st [(a, p)]).1).existing [(a, p)]).2 := rfl
    rw [hu, h2, addCore_noAdd]
  · have hta2 : computeToAdd st.existing [(a, p)] = ([], st.existing) := by
      simp [computeToAdd, hq]
    unfold add
    rw [hta2, addCore_noAdd]

/-- C5 witness: the duplicate request and the repeat call on `exState1`, and
the already-bound alias on `aliasState`, whose file binds `time` under the
explicit alias `mytime` — requesting `(mytime, mytime)` (a different path)
changes nothing. -/
theorem c5_import_idempotent_per_alias_check :
    add exState1 [("time".toList, "time".toList), ("time".toList, "time".toList)] =
      add exState1 [("time".toList, "time".toList)] ∧
    add (add exState1 [("time".toList, "time".toList)]).1
        [("time".toList, "time".toList)] =
      ((add exState1 [("time".toList, "time".toList)]).1, none) ∧
    add aliasState [("mytime".toList, "mytime".toList)] = (aliasState, none) :=
  ⟨((c5_import_idempotent_per_alias exState1 "time".toList "time".toList).1
      (by decide)).1,
   ((c5_import_idempotent_per_alias exState1 "time".toList "time".toList).1
      (by decide)).2,
   (c5_import_idempotent_per_alias aliasState "mytime".toList "mytime".toList).2
      "time".toList (by decide)⟩

/-- C7.  `add` fails only in the pathological state where parse-time imports
exist but no IMPORT declaration can be found (imports.go:132), and an empty
delta returns `nil` with the state untouched. -/
theorem c7_error_only_pathological (st : EState) (required : List (Str × Str)) :
    ((computeToAdd st.existing required).1 = [] → add st required = (st, none)) ∧
    (∀ st2 e, add st required = (st2, some e) →
      st.file.fimports ≠ [] ∧ findImportDecl st.file.decls = none ∧
      e = "no import declaration found".toList) := by
  constructor
  · intro h
    have h2 := computeToAdd_nil_snd st.existing required h
    unfold add
    rw [h, h2, addCore_noAdd]
  · intro st2 e heq
    unfold add at heq
    by_cases h1 : (computeToAdd st.existing required).1 = []
    · rw [h1, computeToAdd_nil_snd st.existing required h1, addCore_noAdd] at heq
      simp at heq
    · by_cases h2 : st.file.fimports = []
      · rw [addCore_fresh st _ _ h1 h2] at heq
        simp at heq
      · cases hf : findImportDecl st.file.decls with
        | some g =>
          rcases Bool.eq_false_or_eq_true g.lparenValid with hlp | hlp
          · rw [addCore_block st _ _ g h1 h2 hf hlp] at heq
            simp at heq
          · rw [addCore_convert st _ _ g h1 h2 hf hlp] at heq
            simp at heq
        | none =>
          rw [addCore_fail st _ _ h1 h2 hf] at heq
          refine ⟨h2, rfl, ?_⟩
          injection heq with hA hB
          injection hB with hB
          exact hB.symm

/-- C7 witness: a non-empty requirement whose delta is empty on `aliasState`
returns `nil` unchanged, and the pathological `badState` (an import recorded
at parse time, no import declaration among the decls) is the error case. -/
theorem c7_error_only_pathological_check :
    add aliasState [("mytime".toList, "time".toList)] = (aliasState, none) ∧
    (badState.file.fimports ≠ [] ∧ findImportDecl badState.file.decls = none ∧
      "no import declaration found".toList =
        "no import declaration found".toList) :=
  ⟨(c7_error_only_pathological aliasState [("mytime".toList, "time".toList)]).1
      (by decide),
   (c7_error_only_pathological badState [("time".toList, "time".toList)]).2
      ({ badState with
          existing := [("x".toList, "x".toList), ("time".toList, "time".toList)] })
      "no import declaration found".toList (by decide)⟩

/-! ## Claim theorem for qualified-type import inference -/

/-- The spec's words for import inference: "strip a single leading pointer
marker".  Compared against `ParseTypeString` / `parseQualifiedType`. -/
def stripMarkerSpec (t : Str) : Str :=
  if headEq '*' t then t.tail else t

lemma requiredImports_single (f s : Str) :
    requiredImports [(f, s)] =
      if (parseTypeString s).1 = [] then []
      else [((parseTypeString s).1, (parseTypeString s).1)] := by
  by_cases hp : (parseTypeString s).1 = []
  · simp [requiredImports, requiredImportsRec, hp]
  · simp [requiredImports, requiredImportsRec, hp, insertL]

/-- C8.  Import inference: after trimming, a single leading `*` is stripped
and the remainder is split at the first `.`; when a dot exists the qualifier
becomes both the import alias and the import path (for `RequiredImports`,
provided the qualifier is non-empty; `parseQualifiedType` returns the
qualifier as both components unconditionally), and without a dot no import is
required. -/
theorem c8_qualified_type_import_inference (f s : Str) :
    (∀ q r, splitOnceDot (stripMarkerSpec (trimSpace s)) = some (q, r) →
      parseTypeString s = (q, r, headEq '*' (trimSpace s)) ∧
      (q ≠ [] → requiredImports [(f, s)] = [(q, q)])) ∧
    (splitOnceDot (stripMarkerSpec (trimSpace s)) = none →
      parseTypeString s =
        ([], stripMarkerSpec (trimSpace s), headEq '*' (trimSpace s)) ∧
      requiredImports [(f, s)] = []) ∧
    (∀ q r, splitOnceDot (stripMarkerSpec s) = some (q, r) →
      parseQualifiedType s = (q, q, true)) ∧
    (splitOnceDot (stripMarkerSpec s) = none →
      parseQualifiedType s = ([], [], false)) := by
  refine ⟨fun q r h => ?_, fun h => ?_, fun q r h => ?_, fun h => ?_⟩
  · unfold stripMarkerSpec at h
    have hp : parseTypeString s = (q, r, headEq '*' (trimSpace s)) := by
      simp only [parseTypeString]
      rw [h]
    refine ⟨hp, fun hq => ?_⟩
    rw [requiredImports_single, hp]
    simp [hq]
  · unfold stripMarkerSpec at h
    have hp : parseTypeString s =
        ([], stripMarkerSpec (trimSpace s), headEq '*' (trimSpace s)) := by
      simp only [parseTypeString]
      rw [h]
      rfl
    refine ⟨hp, ?_⟩
    rw [requiredImports_single, hp]
    simp
  · unfold stripMarkerSpec at h
    simp only [parseQualifiedType]
    rw [h]
  · unfold stripMarkerSpec at h
    simp only [parseQualifiedType]
    rw [h]

/-- C8 witness: `*time.Time` needs import `time` (alias = path = qualifier),
`int64` needs none, and `parseQualifiedType` agrees. -/
theorem c8_qualified_type_import_inference_check :
    parseTypeString "*time.Time".toList =
      ("time".toList, "Time".toList, true) ∧
    requiredImports [("CreatedAt".toList, "*time.Time".toList)] =
      [("time".toList, "time".toList)] ∧
    parseTypeString "int64".toList = ([], "int64".toList, false) ∧
    requiredImports [("ID".toList, "int64".toList)] = [] ∧
    parseQualifiedType "*time.Time".toList =
      ("time".toList, "time".toList, true) :=
  ⟨by
      have h := (c8_qualified_type_import_inference "CreatedAt".toList
        "*time.Time".toList).1 "time".toList "Time".toList (by decide)
      exact h.1,
   by
      have h := (c8_qualified_type_import_inference "CreatedAt".toList
        "*time.Time".toList).1 "time".toList "Time".toList (by decide)
      exact h.2 (by decide),
   by
      have h := (c8_qualified_type_import_inference "ID".toList
        "int64".toList).2.1 (by decide)
      exact h.1,
   by
      have h := (c8_qualified_type_import_inference "ID".toList
        "int64".toList).2.1 (by decide)
      exact h.2,
   by
      exact (c8_qualified_type_import_inference "x".toList
        "*time.Time".toList).2.2.1 "time".toList "Time".toList (by decide)⟩

end EditStructVerif
